import Mathlib

/-!
Shallow embedding of the WebpToJpeg converter component
(`src/webptojpeg/src/components/HelloWorld.vue`).

The component keeps four pieces of state (`selectedFiles`,
`convertedImages`, `isConverting`, `error`) and exposes three operations:
`handleFileSelect` (the selection filter), `convertImages` (the batch
driver, calling `convertWebpToJpeg` per file) and `downloadAllImages`
(the archive exporter).  Platform effects (file reading, image decoding,
JPEG encoding, ZIP packing, object-URL lifecycle) are modelled by
explicit environments describing each fallible step's outcome, and by
executable models of the platform's base64 transport encoding.
-/

namespace WebpToJpeg

/-- A user-picked file: name and declared media type, as seen by the
component (`file.name`, `file.type`). -/
structure SelectedFile where
  name : String
  type : String
deriving DecidableEq, Repr, Inhabited

/-- The object resolved by `convertWebpToJpeg`:
`{ name, url, originalFile }`. -/
structure ConversionResult where
  name : String
  url : String
  originalFile : SelectedFile
deriving DecidableEq, Repr, Inhabited

/-- The component's `data()` fields. `error : Option String` models the
JS `error` field, `none` standing for `null`. -/
structure ComponentState where
  selectedFiles : List SelectedFile
  convertedImages : List ConversionResult
  isConverting : Bool
  error : Option String
deriving DecidableEq, Repr, Inhabited

/-! ### Decimal rendering

JS renders the 1-based index in a template literal; this is ordinary
decimal notation, modelled here with a proven-injective encoder. -/

/-- Big-endian decimal digits, fuel-bounded (the fuel is an upper bound
on the value, so the fallback is unreachable for `natDecDigits`). -/
def natDecDigitsAux : Nat → Nat → List Nat
  | 0, n => [n]
  | fuel + 1, n =>
      if n < 10 then [n] else natDecDigitsAux fuel (n / 10) ++ [n % 10]

/-- Big-endian decimal digits of `n` (each `< 10`). -/
def natDecDigits (n : Nat) : List Nat := natDecDigitsAux n n

/-- Value of a big-endian decimal digit list. -/
def decValue (ds : List Nat) : Nat :=
  ds.foldl (fun a d => a * 10 + d) 0

/-- A decimal digit as a character (JS digit rendering). -/
def digitChar (d : Nat) : Char := Char.ofNat (48 + d)

/-- Decimal string of `n`, as a JS template literal renders a number. -/
def natToDecString (n : Nat) : String :=
  ((natDecDigits n).map digitChar).asString

/-- The sequential output filename: `img-<index>.jpg`. -/
def seqFileName (index : Nat) : String :=
  "img-" ++ natToDecString index ++ ".jpg"

/-! ### Selection filter (`handleFileSelect`) -/

/-- JS `toLowerCase`, character by character. -/
def lowerString (s : String) : String :=
  (s.toList.map Char.toLower).asString

/-- JS `endsWith`: the second string is a suffix of the first. -/
def strEndsWith (s suf : String) : Bool :=
  suf.toList.isSuffixOf s.toList

/-- The filter predicate:
`file.type === 'image/webp' || file.name.toLowerCase().endsWith('.webp')`. -/
def isWebpFile (f : SelectedFile) : Bool :=
  f.type == "image/webp" || strEndsWith (lowerString f.name) ".webp"

/-- `handleFileSelect`: keep only WebP files, clear previous results and
error. -/
def handleFileSelect (st : ComponentState) (files : List SelectedFile) :
    ComponentState :=
  { st with
    selectedFiles := files.filter isWebpFile
    convertedImages := []
    error := none }

/-! ### Per-file converter (`convertWebpToJpeg`)

The platform steps (FileReader read, Image decode, canvas re-encode) are
modelled by an outcome describing which step, if any, fails, and the raw
JPEG bytes produced on success. -/

/-- Outcome of the platform pipeline for one file: the reader errors, the
image fails to load, the encoder throws, or raw JPEG bytes are produced. -/
inductive FileOutcome where
  | readError
  | loadError
  | encodeError (msg : String)
  | ok (jpegBytes : List Nat)
deriving DecidableEq, Repr

/-- Whether the outcome is a success. -/
def FileOutcome.isOk : FileOutcome → Bool
  | .ok _ => true
  | _ => false

/-! ### Base64 transport encoding

`canvas.toDataURL` yields `data:image/jpeg;base64,<payload>`; JSZip's
`{ base64: true }` decodes the payload back to raw bytes.  Both are
platform collaborators, modelled here by executable standard base64 over
byte lists (each byte `< 256`). -/

/-- The base64 alphabet. -/
def b64Chars : List Char :=
  "ABCDEFGHIJKLMNOPQRSTUVWXYZabcdefghijklmnopqrstuvwxyz0123456789+/".toList

/-- Character for a 6-bit group. -/
def idxToChar (i : Nat) : Char := b64Chars.getD i '?'

/-- 6-bit group of a base64 character. -/
def charToIdx (c : Char) : Nat := b64Chars.indexOf c

/-- Standard base64 encoding of a byte list. -/
def base64Encode : List Nat → List Char
  | [] => []
  | [a] => [idxToChar (a / 4), idxToChar (a % 4 * 16), '=', '=']
  | [a, b] => [idxToChar (a / 4), idxToChar (a % 4 * 16 + b / 16),
               idxToChar (b % 16 * 4), '=']
  | a :: b :: c :: rest =>
      idxToChar (a / 4) :: idxToChar (a % 4 * 16 + b / 16) ::
      idxToChar (b % 16 * 4 + c / 64) :: idxToChar (c % 64) ::
      base64Encode rest

/-- Standard base64 decoding back to bytes. -/
def base64Decode : List Char → List Nat
  | c1 :: c2 :: c3 :: c4 :: rest =>
      if c3 = '=' then
        [charToIdx c1 * 4 + charToIdx c2 / 16]
      else if c4 = '=' then
        [charToIdx c1 * 4 + charToIdx c2 / 16,
         charToIdx c2 % 16 * 16 + charToIdx c3 / 4]
      else
        (charToIdx c1 * 4 + charToIdx c2 / 16) ::
        (charToIdx c2 % 16 * 16 + charToIdx c3 / 4) ::
        (charToIdx c3 % 4 * 64 + charToIdx c4) ::
        base64Decode rest
  | _ => []

/-- `canvas.toDataURL('image/jpeg', 0.9)`: a data URL carrying the
base64-encoded JPEG bytes. -/
def toDataURL (bytes : List Nat) : String :=
  "data:image/jpeg;base64," ++ (base64Encode bytes).asString

/-- `convertWebpToJpeg(file, index)`: rejects with the platform error
message (reader and image errors embed the original file name), or
resolves `{ name: img-<index>.jpg, url, originalFile }`. -/
def convertWebpToJpeg (outcome : FileOutcome) (file : SelectedFile)
    (index : Nat) : Except String ConversionResult :=
  match outcome with
  | .readError => .error ("Failed to read file: " ++ file.name)
  | .loadError => .error ("Failed to load image: " ++ file.name)
  | .encodeError msg => .error msg
  | .ok bytes =>
      .ok { name := seqFileName index
            url := toDataURL bytes
            originalFile := file }

/-! ### Batch driver (`convertImages`) -/

/-- What the driver's try/catch loop produces: the final accumulated
`convertedImages`, the error message set by the catch block (if any),
and how many files were attempted. -/
structure LoopResult where
  images : List ConversionResult
  error : Option String
  attempted : Nat
deriving DecidableEq, Repr

/-- The driver's `for` loop: files in order, 1-based naming via
`i + 1`, pushing each result; a rejection aborts the loop and the catch
block sets `error` from the rejection's message. -/
def driverLoop (env : Nat → FileOutcome) :
    List SelectedFile → Nat → List ConversionResult → LoopResult
  | [], _, acc => ⟨acc, none, 0⟩
  | f :: fs, i, acc =>
      match convertWebpToJpeg (env i) f (i + 1) with
      | .ok r =>
          let rest := driverLoop env fs (i + 1) (acc ++ [r])
          ⟨rest.images, rest.error, rest.attempted + 1⟩
      | .error msg =>
          ⟨acc, some ("Error converting images: " ++ msg), 1⟩

/-- The state at the top of a conversion run: busy flag raised, error and
previous results cleared. -/
def startRun (st : ComponentState) : ComponentState :=
  { st with isConverting := true, error := none, convertedImages := [] }

/-- `convertImages`: no-op on an empty selection; otherwise runs the
loop from `startRun`, with the catch/finally semantics of the source. -/
def convertImages (env : Nat → FileOutcome) (st : ComponentState) :
    ComponentState :=
  if st.selectedFiles.isEmpty then st
  else
    let st1 := startRun st
    let r := driverLoop env st1.selectedFiles 0 []
    { st1 with
      convertedImages := r.images
      error := r.error
      isConverting := false }

/-- The successive values of `convertedImages` observable after each
successful push inside the loop (the run is still in flight at each). -/
def loopImageStates (env : Nat → FileOutcome) :
    List SelectedFile → Nat → List ConversionResult →
    List (List ConversionResult)
  | [], _, _ => []
  | f :: fs, i, acc =>
      match convertWebpToJpeg (env i) f (i + 1) with
      | .ok r => (acc ++ [r]) :: loopImageStates env fs (i + 1) (acc ++ [r])
      | .error _ => []

/-- The component states passed through while a run is in flight: the
state right after `startRun`, then the state after each push. -/
def inFlightStates (env : Nat → FileOutcome) (st : ComponentState) :
    List ComponentState :=
  if st.selectedFiles.isEmpty then []
  else
    startRun st ::
      (loopImageStates env st.selectedFiles 0 []).map
        (fun imgs => { startRun st with convertedImages := imgs })

/-- The template's results section condition:
`v-if="convertedImages.length > 0"`. -/
def resultsSectionVisible (st : ComponentState) : Bool :=
  decide (0 < st.convertedImages.length)

/-! ### Archive exporter (`downloadAllImages`) -/

/-- JS `String.prototype.split` on a one-character separator, over the
character list of the string. -/
def splitOnChar (sep : Char) : List Char → List (List Char)
  | [] => [[]]
  | c :: cs =>
      if c = sep then [] :: splitOnChar sep cs
      else
        match splitOnChar sep cs with
        | [] => [[c]]
        | s :: ss => (c :: s) :: ss

/-- `image.url.split(',')[1]`: the payload after the data-URL scheme
part (JS indexing out of range gives `undefined`; modelled as `""`,
unreachable for the URLs the converter produces). -/
def dataUrlPayload (url : String) : String :=
  ((splitOnChar ',' url.toList).getD 1 []).asString

/-- One entry of the produced archive: `zip.file(name, data, {base64:
true})` stores the base64-decoded payload under `name`. -/
structure ZipEntry where
  name : String
  content : List Nat
deriving DecidableEq, Repr

/-- The entry set the exporter registers: one entry per result, named by
the result, holding the decoded payload bytes. -/
def makeZipEntries (results : List ConversionResult) : List ZipEntry :=
  results.map (fun r =>
    { name := r.name
      content := base64Decode (dataUrlPayload r.url).toList })

/-- The finalized archive: download name plus entries. -/
structure Archive where
  name : String
  entries : List ZipEntry
deriving DecidableEq, Repr

/-- Outcomes of the exporter's two fallible platform steps:
`generateAsync` (archive finalization) and the download-trigger DOM
sequence between `createObjectURL` and `revokeObjectURL`. `none` means
the step succeeds. -/
structure ExportEnv where
  genError : Option String
  triggerError : Option String

/-- What one `downloadAllImages` invocation leaves behind: the component
state, the archive whose download was triggered (if any), and whether a
temporary object URL was created resp. revoked. -/
structure ExportOutcome where
  state : ComponentState
  archive : Option Archive
  urlCreated : Bool
  urlRevoked : Bool
deriving DecidableEq, Repr

/-- `downloadAllImages`: no-op on an empty result set; otherwise builds
the entries, finalizes the archive, creates an object URL, runs the
download trigger, and revokes the URL — with the catch block setting
`error` on any failure.  `revokeObjectURL` sits inside the `try` after
the trigger sequence, so it only runs when that sequence succeeds. -/
def downloadAllImages (env : ExportEnv) (st : ComponentState) :
    ExportOutcome :=
  if st.convertedImages.isEmpty then
    ⟨st, none, false, false⟩
  else
    match env.genError with
    | some msg =>
        ⟨{ st with error := some ("Error creating zip file: " ++ msg) },
         none, false, false⟩
    | none =>
        match env.triggerError with
        | some msg =>
            ⟨{ st with error := some ("Error creating zip file: " ++ msg) },
             none, true, false⟩
        | none =>
            ⟨st, some ⟨"converted_images.zip",
                       makeZipEntries st.convertedImages⟩,
             true, true⟩

/-! ### Specification-side descriptions of the loop's output -/

/-- The platform error message for a failed outcome (reader and image
errors embed the original file name, mirroring `convertWebpToJpeg`). -/
def failMsg (o : FileOutcome) (f : SelectedFile) : String :=
  match o with
  | .readError => "Failed to read file: " ++ f.name
  | .loadError => "Failed to load image: " ++ f.name
  | .encodeError m => m
  | .ok _ => ""

/-- The result resolved for a successful outcome. -/
def okResult (o : FileOutcome) (f : SelectedFile) (idx : Nat) :
    ConversionResult :=
  match o with
  | .ok bytes =>
      { name := seqFileName idx, url := toDataURL bytes, originalFile := f }
  | _ => { name := seqFileName idx, url := "", originalFile := f }

/-- The first `k` results of a run over `files` whose 0-based file `j`
gets outcome `env (i + j)` and name index `i + j + 1`. -/
def expectedResults (env : Nat → FileOutcome) :
    List SelectedFile → Nat → Nat → List ConversionResult
  | _, _, 0 => []
  | [], _, _ + 1 => []
  | f :: fs, i, k + 1 =>
      okResult (env i) f (i + 1) :: expectedResults env fs (i + 1) k

/-! ### Concrete scenario inputs used to instantiate the theorems -/

/-- A well-formed WebP file. -/
def fileA : SelectedFile := ⟨"a.webp", "image/webp"⟩

/-- A second WebP file (possibly corrupted, depending on the outcome
environment). -/
def fileB : SelectedFile := ⟨"b.webp", "image/webp"⟩

/-- A state with two selected WebP files and no prior results. -/
def stTwoFiles : ComponentState := ⟨[fileA, fileB], [], false, none⟩

/-- An environment in which every file converts, yielding byte `1`. -/
def envAllOk : Nat → FileOutcome := fun _ => .ok [1]

/-- An environment in which the first file converts and every later file
fails to decode. -/
def envSecondFails : Nat → FileOutcome :=
  fun i => if i = 0 then .ok [1] else .loadError

/-- The result the converter produces for `fileA` at position 1. -/
def resultOne : ConversionResult := ⟨seqFileName 1, toDataURL [1], fileA⟩

/-- A state holding one conversion result and a stale error from a
previous failed attempt. -/
def stStaleError : ComponentState :=
  ⟨[], [resultOne], false, some "old failure"⟩

/-- A state holding one conversion result and no error. -/
def stOneResult : ComponentState := ⟨[], [resultOne], false, none⟩

/-- The component state after the first file of `stTwoFiles` completes
under `envAllOk`, while the run is still in flight. -/
def midState : ComponentState :=
  (inFlightStates envAllOk stTwoFiles).getD 1 default

/-- A non-WebP file. -/
def filePng : SelectedFile := ⟨"b.png", "image/png"⟩

/-- A WebP file with an upper-case extension and a generic declared
type. -/
def fileCUpper : SelectedFile := ⟨"c.WEBP", "application/octet-stream"⟩

/-- The spec's mixed selection scenario: `[a.webp, b.png, c.WEBP]`. -/
def filesMixed : List SelectedFile := [fileA, filePng, fileCUpper]

/-! ### Lemmas: decimal rendering -/

theorem decValue_append_digit (l : List Nat) (d : Nat) :
    decValue (l ++ [d]) = decValue l * 10 + d := by
  simp [decValue, List.foldl_append]

theorem decValue_natDecDigitsAux :
    ∀ (fuel n : Nat), n ≤ fuel →
      decValue (natDecDigitsAux fuel n) = n := by
  intro fuel
  induction fuel with
  | zero =>
      intro n hn
      have : n = 0 := by omega
      subst this
      rfl
  | succ fuel ih =>
      intro n hn
      by_cases h : n < 10
      · simp [natDecDigitsAux, h, decValue]
      · rw [natDecDigitsAux, if_neg h, decValue_append_digit,
          ih (n / 10) (by omega)]
        omega

theorem decValue_natDecDigits (n : Nat) :
    decValue (natDecDigits n) = n :=
  decValue_natDecDigitsAux n n (le_refl n)

theorem natDecDigitsAux_lt_ten :
    ∀ (fuel n : Nat), n ≤ fuel → ∀ d ∈ natDecDigitsAux fuel n, d < 10 := by
  intro fuel
  induction fuel with
  | zero =>
      intro n hn d hd
      have : n = 0 := by omega
      subst this
      simp [natDecDigitsAux] at hd
      omega
  | succ fuel ih =>
      intro n hn d hd
      by_cases h : n < 10
      · rw [natDecDigitsAux, if_pos h] at hd
        simp at hd
        omega
      · rw [natDecDigitsAux, if_neg h] at hd
        rcases List.mem_append.mp hd with h1 | h2
        · exact ih (n / 10) (by omega) d h1
        · simp at h2; omega

theorem natDecDigits_lt_ten (n : Nat) : ∀ d ∈ natDecDigits n, d < 10 :=
  natDecDigitsAux_lt_ten n n (le_refl n)

theorem digitChar_inj : ∀ d1 < 10, ∀ d2 < 10,
    digitChar d1 = digitChar d2 → d1 = d2 := by decide

theorem map_digitChar_inj : ∀ l1 l2 : List Nat, (∀ d ∈ l1, d < 10) →
    (∀ d ∈ l2, d < 10) → l1.map digitChar = l2.map digitChar → l1 = l2 := by
  intro l1
  induction l1 with
  | nil => intro l2 _ _ hm; cases l2 <;> simp_all
  | cons a l ih =>
      intro l2 h1 h2 hm
      cases l2 with
      | nil => simp at hm
      | cons b t =>
          simp only [List.map_cons, List.cons.injEq] at hm
          have hab : a = b :=
            digitChar_inj a (h1 a (by simp)) b (h2 b (by simp)) hm.1
          have : l = t := ih t (fun d hd => h1 d (by simp [hd]))
            (fun d hd => h2 d (by simp [hd])) hm.2
          simp [hab, this]

theorem natToDecString_inj (m n : Nat)
    (h : natToDecString m = natToDecString n) : m = n := by
  have hd : ((natDecDigits m).map digitChar) =
      ((natDecDigits n).map digitChar) := congrArg String.data h
  have := map_digitChar_inj _ _ (natDecDigits_lt_ten m)
    (natDecDigits_lt_ten n) hd
  calc m = decValue (natDecDigits m) := (decValue_natDecDigits m).symm
    _ = decValue (natDecDigits n) := by rw [this]
    _ = n := decValue_natDecDigits n

theorem seqFileName_inj (m n : Nat) (h : seqFileName m = seqFileName n) :
    m = n := by
  apply natToDecString_inj
  apply String.ext
  have hd := congrArg String.data h
  simp only [seqFileName, String.data_append, List.append_assoc] at hd
  exact List.append_cancel_right (List.append_cancel_left hd)

/-! ### Lemmas: base64 round trip -/

theorem charToIdx_idxToChar : ∀ i < 64, charToIdx (idxToChar i) = i := by
  decide

theorem idxToChar_ne_pad : ∀ i < 64, idxToChar i ≠ '=' := by decide

theorem idxToChar_ne_comma (i : Nat) : idxToChar i ≠ ',' := by
  rcases Nat.lt_or_ge i 64 with h | h
  · revert h; revert i; decide
  · have : idxToChar i = '?' := by
      apply List.getD_eq_default
      simpa [b64Chars] using h
    simp [this]

theorem base64Decode_base64Encode (l : List Nat)
    (h : ∀ x ∈ l, x < 256) : base64Decode (base64Encode l) = l := by
  induction l using base64Encode.induct with
  | case1 => rfl
  | case2 a =>
      have ha : a < 256 := h a (by simp)
      have h1 := charToIdx_idxToChar (a / 4) (by omega)
      have h2 := charToIdx_idxToChar (a % 4 * 16) (by omega)
      simp [base64Encode, base64Decode, h1, h2]
      omega
  | case3 a b =>
      have ha : a < 256 := h a (by simp)
      have hb : b < 256 := h b (by simp)
      have h1 := charToIdx_idxToChar (a / 4) (by omega)
      have h2 := charToIdx_idxToChar (a % 4 * 16 + b / 16) (by omega)
      have h3 := charToIdx_idxToChar (b % 16 * 4) (by omega)
      have hne : idxToChar (b % 16 * 4) ≠ '=' :=
        idxToChar_ne_pad _ (by omega)
      simp [base64Encode, base64Decode, h1, h2, h3, hne]
      omega
  | case4 a b c rest ih =>
      have ha : a < 256 := h a (by simp)
      have hb : b < 256 := h b (by simp)
      have hc : c < 256 := h c (by simp)
      have h1 := charToIdx_idxToChar (a / 4) (by omega)
      have h2 := charToIdx_idxToChar (a % 4 * 16 + b / 16) (by omega)
      have h3 := charToIdx_idxToChar (b % 16 * 4 + c / 64) (by omega)
      have h4 := charToIdx_idxToChar (c % 64) (by omega)
      have hne3 : idxToChar (b % 16 * 4 + c / 64) ≠ '=' :=
        idxToChar_ne_pad _ (by omega)
      have hne4 : idxToChar (c % 64) ≠ '=' :=
        idxToChar_ne_pad _ (by omega)
      have hrest := ih (fun x hx => h x (by simp [hx]))
      simp [base64Encode, base64Decode, h1, h2, h3, h4, hne3, hne4, hrest]
      omega

theorem comma_not_mem_base64Encode (l : List Nat) :
    ',' ∉ base64Encode l := by
  induction l using base64Encode.induct with
  | case1 => simp [base64Encode]
  | case2 a =>
      intro hmem
      simp only [base64Encode, List.mem_cons, List.not_mem_nil,
        or_false] at hmem
      rcases hmem with h | h | h | h
      · exact idxToChar_ne_comma _ h.symm
      · exact idxToChar_ne_comma _ h.symm
      · exact absurd h (by decide)
      · exact absurd h (by decide)
  | case3 a b =>
      intro hmem
      simp only [base64Encode, List.mem_cons, List.not_mem_nil,
        or_false] at hmem
      rcases hmem with h | h | h | h
      · exact idxToChar_ne_comma _ h.symm
      · exact idxToChar_ne_comma _ h.symm
      · exact idxToChar_ne_comma _ h.symm
      · exact absurd h (by decide)
  | case4 a b c rest ih =>
      intro hmem
      simp only [base64Encode, List.mem_cons] at hmem
      rcases hmem with h | h | h | h | h
      · exact idxToChar_ne_comma _ h.symm
      · exact idxToChar_ne_comma _ h.symm
      · exact idxToChar_ne_comma _ h.symm
      · exact idxToChar_ne_comma _ h.symm
      · exact ih h

/-! ### Lemmas: data-URL payload extraction -/

theorem splitOnChar_of_not_mem (sep : Char) (l : List Char)
    (h : sep ∉ l) : splitOnChar sep l = [l] := by
  induction l with
  | nil => rfl
  | cons c cs ih =>
      have hc : c ≠ sep := fun hx => h (by simp [hx])
      have hcs : sep ∉ cs := fun hx => h (by simp [hx])
      simp [splitOnChar, hc, ih hcs]

theorem splitOnChar_append (sep : Char) (l1 l2 : List Char)
    (h : sep ∉ l1) :
    splitOnChar sep (l1 ++ sep :: l2) = l1 :: splitOnChar sep l2 := by
  induction l1 with
  | nil => simp [splitOnChar]
  | cons c cs ih =>
      have hc : c ≠ sep := fun hx => h (by simp [hx])
      have hcs : sep ∉ cs := fun hx => h (by simp [hx])
      simp only [List.cons_append, splitOnChar, if_neg hc]
      rw [show cs.append (sep :: l2) = cs ++ sep :: l2 from rfl, ih hcs]

theorem dataUrlPayload_toDataURL (bytes : List Nat) :
    dataUrlPayload (toDataURL bytes) = (base64Encode bytes).asString := by
  unfold dataUrlPayload toDataURL
  have hsplit : ("data:image/jpeg;base64," ++
      (base64Encode bytes).asString).toList =
      "data:image/jpeg;base64".toList ++ ',' :: base64Encode bytes := by
    simp [String.toList, String.data_append]
    rfl
  rw [hsplit, splitOnChar_append _ _ _ (by decide),
    splitOnChar_of_not_mem _ _ (comma_not_mem_base64Encode bytes)]
  rfl

/-! ### Lemmas: the batch driver loop -/

theorem convertWebpToJpeg_of_not_isOk (o : FileOutcome) (f : SelectedFile)
    (idx : Nat) (h : o.isOk = false) :
    convertWebpToJpeg o f idx = .error (failMsg o f) := by
  cases o <;> simp_all [FileOutcome.isOk, convertWebpToJpeg, failMsg]

theorem convertWebpToJpeg_of_isOk (o : FileOutcome) (f : SelectedFile)
    (idx : Nat) (h : o.isOk = true) :
    convertWebpToJpeg o f idx = .ok (okResult o f idx) := by
  cases o <;> simp_all [FileOutcome.isOk, convertWebpToJpeg, okResult]

theorem expectedResults_length (env : Nat → FileOutcome) :
    ∀ (files : List SelectedFile) (i k : Nat),
      (expectedResults env files i k).length = min k files.length := by
  intro files
  induction files with
  | nil =>
      intro i k
      cases k <;> simp [expectedResults]
  | cons f fs ih =>
      intro i k
      cases k with
      | zero => simp [expectedResults]
      | succ k =>
          simp only [expectedResults, List.length_cons, ih (i + 1) k]
          omega

theorem driverLoop_all_ok (env : Nat → FileOutcome) :
    ∀ (files : List SelectedFile) (i : Nat) (acc : List ConversionResult),
      (∀ j < files.length, (env (i + j)).isOk = true) →
      driverLoop env files i acc =
        ⟨acc ++ expectedResults env files i files.length, none,
         files.length⟩ := by
  intro files
  induction files with
  | nil => intro i acc _; simp [driverLoop, expectedResults]
  | cons f fs ih =>
      intro i acc h
      have h0 : (env i).isOk = true := by
        have := h 0 (by simp)
        simpa using this
      rw [driverLoop, convertWebpToJpeg_of_isOk _ _ _ h0]
      have hrec := ih (i + 1) (acc ++ [okResult (env i) f (i + 1)])
        (fun j hj => by
          have := h (j + 1) (by simp; omega)
          simpa [Nat.add_assoc, Nat.add_comm 1 j] using this)
      simp only [hrec, expectedResults, List.length_cons]
      simp [List.append_assoc]

theorem driverLoop_fail (env : Nat → FileOutcome) :
    ∀ (files : List SelectedFile) (i : Nat) (acc : List ConversionResult)
      (k : Nat), k < files.length →
      (∀ j < k, (env (i + j)).isOk = true) →
      (env (i + k)).isOk = false →
      driverLoop env files i acc =
        ⟨acc ++ expectedResults env files i k,
         some ("Error converting images: " ++
           failMsg (env (i + k)) (files.getD k default)),
         k + 1⟩ := by
  intro files
  induction files with
  | nil => intro i acc k hk; simp at hk
  | cons f fs ih =>
      intro i acc k hk hok hfail
      cases k with
      | zero =>
          have hf : (env i).isOk = false := by simpa using hfail
          rw [driverLoop, convertWebpToJpeg_of_not_isOk _ _ _ hf]
          simp [expectedResults]
      | succ k =>
          have h0 : (env i).isOk = true := by
            have := hok 0 (by omega)
            simpa using this
          rw [driverLoop, convertWebpToJpeg_of_isOk _ _ _ h0]
          have hrec := ih (i + 1) (acc ++ [okResult (env i) f (i + 1)]) k
            (by simpa using hk)
            (fun j hj => by
              have := hok (j + 1) (by omega)
              simpa [Nat.add_assoc, Nat.add_comm 1 j] using this)
            (by
              have : i + (k + 1) = i + 1 + k := by omega
              rw [this] at hfail
              exact hfail)
          simp only [hrec, expectedResults]
          have hidx : i + 1 + k = i + (k + 1) := by omega
          simp [List.append_assoc, hidx]

theorem driverLoop_names (env : Nat → FileOutcome) :
    ∀ (files : List SelectedFile) (i : Nat) (acc : List ConversionResult),
      acc.length = i →
      (∀ j < acc.length, (acc.getD j default).name = seqFileName (j + 1)) →
      ∀ j < (driverLoop env files i acc).images.length,
        ((driverLoop env files i acc).images.getD j default).name =
          seqFileName (j + 1) := by
  intro files
  induction files with
  | nil =>
      intro i acc _ hacc j hj
      simpa [driverLoop] using hacc j (by simpa [driverLoop] using hj)
  | cons f fs ih =>
      intro i acc hlen hacc j hj
      rw [driverLoop] at hj ⊢
      cases henv : env i with
      | readError =>
          rw [henv] at hj
          simp only [convertWebpToJpeg] at hj ⊢
          exact hacc j hj
      | loadError =>
          rw [henv] at hj
          simp only [convertWebpToJpeg] at hj ⊢
          exact hacc j hj
      | encodeError m =>
          rw [henv] at hj
          simp only [convertWebpToJpeg] at hj ⊢
          exact hacc j hj
      | ok bytes =>
          rw [henv] at hj
          simp only [convertWebpToJpeg] at hj ⊢
          refine ih (i + 1)
            (acc ++ [⟨seqFileName (i + 1), toDataURL bytes, f⟩])
            (by simp [hlen]) ?_ j hj
          intro j' hj'
          simp only [List.length_append, List.length_cons,
            List.length_nil] at hj'
          rcases Nat.lt_or_ge j' acc.length with hlt | hge
          · rw [List.getD_append _ _ _ _ hlt]
            exact hacc j' hlt
          · have hj'' : j' = acc.length := by omega
            subst hj''
            rw [List.getD_append_right _ _ _ _ (le_refl _)]
            simp [hlen]

/-! ### Lemmas: the operations as state transformers -/

theorem convertImages_of_nonempty (env : Nat → FileOutcome)
    (st : ComponentState) (h : st.selectedFiles.isEmpty = false) :
    convertImages env st =
      { st with
        convertedImages := (driverLoop env st.selectedFiles 0 []).images
        error := (driverLoop env st.selectedFiles 0 []).error
        isConverting := false } := by
  simp [convertImages, startRun, h]

theorem convertImages_of_empty (env : Nat → FileOutcome)
    (st : ComponentState) (h : st.selectedFiles.isEmpty = true) :
    convertImages env st = st := by
  simp [convertImages, h]

theorem loopImageStates_ne_nil (env : Nat → FileOutcome) :
    ∀ (files : List SelectedFile) (i : Nat) (acc : List ConversionResult),
      ∀ l ∈ loopImageStates env files i acc, l ≠ [] := by
  intro files
  induction files with
  | nil => intro i acc l hl; simp [loopImageStates] at hl
  | cons f fs ih =>
      intro i acc l hl
      rw [loopImageStates] at hl
      cases henv : env i with
      | readError => rw [henv] at hl; simp [convertWebpToJpeg] at hl
      | loadError => rw [henv] at hl; simp [convertWebpToJpeg] at hl
      | encodeError m => rw [henv] at hl; simp [convertWebpToJpeg] at hl
      | ok bytes =>
          rw [henv] at hl
          simp only [convertWebpToJpeg, List.mem_cons] at hl
          rcases hl with hl | hl
          · subst hl; simp
          · exact ih (i + 1) _ l hl

theorem makeZipEntries_payload (rs : List ConversionResult)
    (payload : ConversionResult → List Nat)
    (h : ∀ r ∈ rs, r.url = toDataURL (payload r) ∧
      ∀ b ∈ payload r, b < 256) :
    makeZipEntries rs =
      rs.map (fun r => { name := r.name, content := payload r }) := by
  unfold makeZipEntries
  apply List.map_congr_left
  intro r hr
  obtain ⟨hurl, hb⟩ := h r hr
  rw [hurl, dataUrlPayload_toDataURL]
  have : ((base64Encode (payload r)).asString).toList =
      base64Encode (payload r) := rfl
  rw [this, base64Decode_base64Encode _ hb]

/-! ### The claims -/

/-- C1: over a non-empty filtered selection, the batch driver processes
files sequentially in selection order and the first failing file (index
`k`, 0-based) aborts the batch: exactly `k + 1` files are attempted,
`convertedImages` holds exactly the results of the first `k` files, and
`error` embeds the failure's description, which for read and decode
failures ends in the failing file's original name. -/
theorem convertImages_first_failure_aborts (env : Nat → FileOutcome)
    (st : ComponentState) (k : Nat)
    (hk : k < st.selectedFiles.length)
    (hok : ∀ j < k, (env j).isOk = true)
    (hfail : (env k).isOk = false) :
    (convertImages env st).convertedImages =
      expectedResults env st.selectedFiles 0 k ∧
    (convertImages env st).convertedImages.length = k ∧
    (driverLoop env st.selectedFiles 0 []).attempted = k + 1 ∧
    (convertImages env st).error =
      some ("Error converting images: " ++
        failMsg (env k) (st.selectedFiles.getD k default)) ∧
    ((env k = .readError ∨ env k = .loadError) →
      ∃ p, (convertImages env st).error =
        some (p ++ (st.selectedFiles.getD k default).name)) := by
  have hne : st.selectedFiles.isEmpty = false := by
    cases hsel : st.selectedFiles
    · rw [hsel] at hk; simp at hk
    · simp
  have hloop := driverLoop_fail env st.selectedFiles 0 [] k hk
    (fun j hj => by simpa using hok j hj)
    (by simpa using hfail)
  rw [convertImages_of_nonempty env st hne, hloop]
  refine ⟨by simp, ?_, rfl, by simp, ?_⟩
  · simp [expectedResults_length]
    omega
  · intro hcase
    have hzk : (0 : Nat) + k = k := by omega
    rcases hcase with hr | hr
    · refine ⟨"Error converting images: " ++ "Failed to read file: ", ?_⟩
      simp only [hzk, hr, failMsg]
      rw [String.append_assoc]
    · refine ⟨"Error converting images: " ++ "Failed to load image: ", ?_⟩
      simp only [hzk, hr, failMsg]
      rw [String.append_assoc]

/-- C2: the selection filter's output is exactly the input's sublist of
files whose declared type is `image/webp` or whose lowercased name ends
in `.webp`: it equals `List.filter isWebpFile`, every output element
satisfies the predicate, and the output is a sublist of the input
(relative order preserved); the operation is total, and an empty output
is an ordinary value. -/
theorem handleFileSelect_filter_spec (st : ComponentState)
    (files : List SelectedFile) :
    (handleFileSelect st files).selectedFiles = files.filter isWebpFile ∧
    (∀ f ∈ (handleFileSelect st files).selectedFiles,
      isWebpFile f = true) ∧
    (handleFileSelect st files).selectedFiles.Sublist files := by
  refine ⟨rfl, ?_, ?_⟩
  · intro f hf
    exact (List.mem_filter.mp hf).2
  · exact List.filter_sublist _

/-- C2 witness: on the spec's mixed selection the filter keeps exactly
the WebP files, in order. -/
theorem handleFileSelect_filter_spec_witness :
    (handleFileSelect stTwoFiles filesMixed).selectedFiles =
      filesMixed.filter isWebpFile ∧
    (handleFileSelect stTwoFiles filesMixed).selectedFiles =
      [fileA, fileCUpper] :=
  ⟨(handleFileSelect_filter_spec stTwoFiles filesMixed).1, by decide⟩

/-- C3: in every non-empty run, the `j`-th (0-based) element of the
resulting `convertedImages` is named `img-<j+1>.jpg`, regardless of the
original filenames, and within one run all result names are distinct. -/
theorem convertImages_sequential_names (env : Nat → FileOutcome)
    (st : ComponentState) (h : st.selectedFiles ≠ []) :
    (∀ j < (convertImages env st).convertedImages.length,
      (((convertImages env st).convertedImages).getD j default).name =
        seqFileName (j + 1)) ∧
    (∀ j1 < (convertImages env st).convertedImages.length,
      ∀ j2 < (convertImages env st).convertedImages.length,
      j1 ≠ j2 →
      (((convertImages env st).convertedImages).getD j1 default).name ≠
        (((convertImages env st).convertedImages).getD j2 default).name) := by
  have hne : st.selectedFiles.isEmpty = false := by
    cases hsel : st.selectedFiles
    · exact absurd hsel h
    · simp
  have hnames : ∀ j < (driverLoop env st.selectedFiles 0 []).images.length,
      (((driverLoop env st.selectedFiles 0 []).images).getD j default).name =
        seqFileName (j + 1) :=
    driverLoop_names env st.selectedFiles 0 [] (by simp) (by simp)
  rw [convertImages_of_nonempty env st hne]
  refine ⟨hnames, ?_⟩
  intro j1 h1 j2 h2 hne' heq
  rw [hnames j1 h1, hnames j2 h2] at heq
  have := seqFileName_inj _ _ heq
  exact hne' (by omega)

/-- C3 witness: in the all-success run over two files the first result
is named `img-1.jpg`. -/
theorem convertImages_sequential_names_witness :
    ((convertImages envAllOk stTwoFiles).convertedImages.getD 0
      default).name = seqFileName 1 :=
  (convertImages_sequential_names envAllOk stTwoFiles (by decide)).1 0
    (by decide)

/-- C1 witness: with two selected files where the second fails to
decode, exactly one result is kept and two files were attempted. -/
theorem convertImages_first_failure_aborts_witness :
    (convertImages envSecondFails stTwoFiles).convertedImages.length = 1 ∧
    (driverLoop envSecondFails stTwoFiles.selectedFiles 0 []).attempted =
      2 := by
  have h := convertImages_first_failure_aborts envSecondFails stTwoFiles 1
    (by decide) (by decide) (by decide)
  exact ⟨h.2.1, h.2.2.1⟩

/-- C4: archive export on an empty result set is a no-op (no archive, no
error, no object URL); on a non-empty result set whose URLs carry
payload bytes, one archive named `converted_images.zip` is produced with
one entry per result, entry name = result name, entry content = the raw
payload bytes recovered by stripping the data-URL head and decoding the
base64 transport encoding. -/
theorem downloadAllImages_archive_spec (env : ExportEnv)
    (st : ComponentState) (payload : ConversionResult → List Nat) :
    (st.convertedImages = [] →
      downloadAllImages env st = ⟨st, none, false, false⟩) ∧
    (st.convertedImages ≠ [] → env.genError = none →
      env.triggerError = none →
      (∀ r ∈ st.convertedImages, r.url = toDataURL (payload r) ∧
        ∀ b ∈ payload r, b < 256) →
      (downloadAllImages env st).archive =
        some ⟨"converted_images.zip",
          st.convertedImages.map
            (fun r => { name := r.name, content := payload r })⟩) := by
  constructor
  · intro h
    simp [downloadAllImages, h]
  · intro hne hg ht hp
    have hempty : st.convertedImages.isEmpty = false := by
      cases hsel : st.convertedImages
      · exact absurd hsel hne
      · simp
    simp only [downloadAllImages, hempty, Bool.false_eq_true, if_false,
      hg, ht]
    rw [makeZipEntries_payload _ payload hp]

/-- C4 witness: exporting one result produces the archive with that
entry holding the raw bytes. -/
theorem downloadAllImages_archive_spec_witness :
    (downloadAllImages ⟨none, none⟩ stOneResult).archive =
      some ⟨"converted_images.zip",
        stOneResult.convertedImages.map
          (fun r => { name := r.name, content := [1] })⟩ := by
  refine (downloadAllImages_archive_spec ⟨none, none⟩ stOneResult
    (fun _ => [1])).2 (by decide) rfl rfl ?_
  intro r hr
  have : r = resultOne := by
    simpa [stOneResult] using hr
  subst this
  exact ⟨rfl, by decide⟩

/-- C5: `isConverting` is true in every in-flight state of a run, and
the driver leaves it false when it returns — unconditionally for a
non-empty selection (success or any failure), and trivially for the
empty no-op when it was false before. -/
theorem isConverting_lifecycle (env : Nat → FileOutcome)
    (st : ComponentState) :
    ((st.selectedFiles ≠ [] ∨ st.isConverting = false) →
      (convertImages env st).isConverting = false) ∧
    (∀ s ∈ inFlightStates env st, s.isConverting = true) := by
  constructor
  · intro h
    rcases hsel : st.selectedFiles with _ | ⟨f, fs⟩
    · rw [convertImages_of_empty env st (by simp [hsel])]
      rcases h with h | h
      · exact absurd hsel h
      · exact h
    · rw [convertImages_of_nonempty env st (by simp [hsel])]
  · intro s hs
    unfold inFlightStates at hs
    split at hs
    · simp at hs
    · simp only [List.mem_cons, List.mem_map] at hs
      rcases hs with hs | ⟨imgs, _, hs⟩
      · subst hs; rfl
      · subst hs; rfl

/-- C5 witness: a run over two files (second failing) ends with
`isConverting = false`. -/
theorem isConverting_lifecycle_witness :
    (convertImages envSecondFails stTwoFiles).isConverting = false :=
  (isConverting_lifecycle envSecondFails stTwoFiles).1
    (Or.inl (by decide))

/-- C6: `convertedImages` is emptied by every new file selection
(unconditionally, even if the filtered selection is empty) and by the
start-of-run state; every non-empty run begins at exactly that
start-of-run state. -/
theorem convertedImages_reset (st : ComponentState)
    (files : List SelectedFile) (env : Nat → FileOutcome) :
    (handleFileSelect st files).convertedImages = [] ∧
    (startRun st).convertedImages = [] ∧
    (st.selectedFiles.isEmpty = false →
      ∃ l, inFlightStates env st = startRun st :: l) := by
  refine ⟨rfl, rfl, ?_⟩
  intro h
  unfold inFlightStates
  rw [h]
  exact ⟨_, rfl⟩

/-- C6 witness: a run over a non-empty selection starts at the cleared
state. -/
theorem convertedImages_reset_witness :
    ∃ l, inFlightStates envAllOk stTwoFiles = startRun stTwoFiles :: l :=
  (convertedImages_reset stTwoFiles [] envAllOk).2.2 (by decide)

/-- C7 counterexample: after a successful archive export, a stale error
from a previous attempt is still set — the exporter does not clear
`error` at the start of the attempt, contradicting the claim. -/
theorem downloadAllImages_keeps_stale_error :
    (downloadAllImages ⟨none, none⟩ stStaleError).state.error =
      some "old failure" := rfl

/-- C7 (amended): `error` is cleared at the start of every new file
selection and every new conversion run, but NOT at the start of an
archive export: a successful export leaves `error` unchanged, and a
failed export overwrites it with the export failure message. -/
theorem error_cleared_on_attempts (st : ComponentState)
    (files : List SelectedFile) (env : ExportEnv) :
    (handleFileSelect st files).error = none ∧
    (startRun st).error = none ∧
    (env.genError = none → env.triggerError = none →
      (downloadAllImages env st).state.error = st.error) ∧
    (∀ msg, env.genError = some msg → st.convertedImages ≠ [] →
      (downloadAllImages env st).state.error =
        some ("Error creating zip file: " ++ msg)) := by
  refine ⟨rfl, rfl, ?_, ?_⟩
  · intro hg ht
    unfold downloadAllImages
    rw [hg, ht]
    by_cases h : st.convertedImages.isEmpty = true <;> simp [h]
  · intro msg hg hne
    have hempty : st.convertedImages.isEmpty = false := by
      cases hsel : st.convertedImages
      · exact absurd hsel hne
      · simp
    unfold downloadAllImages
    rw [hg, hempty]
    simp

/-- C7 (amended) witness: a successful export leaves the stale error in
place. -/
theorem error_cleared_on_attempts_witness :
    (downloadAllImages ⟨none, none⟩ stStaleError).state.error =
      stStaleError.error :=
  (error_cleared_on_attempts stStaleError [] ⟨none, none⟩).2.2.1 rfl rfl

/-- C8 counterexample: when the download-trigger step fails, the object
URL has been created but is never revoked — cleanup is not guaranteed
independent of the trigger step's failure, contradicting the claim. -/
theorem revoke_skipped_on_trigger_failure :
    (downloadAllImages ⟨none, some "boom"⟩ stOneResult).urlCreated =
      true ∧
    (downloadAllImages ⟨none, some "boom"⟩ stOneResult).urlRevoked =
      false := ⟨rfl, rfl⟩

/-- C8 (amended): the temporary object URL is revoked exactly when it
was created and the download-trigger sequence succeeds; a trigger
failure leaks the created URL (the revocation sits inside the `try`
after the trigger, not in guaranteed cleanup). -/
theorem urlRevoked_iff_created_and_trigger_ok (env : ExportEnv)
    (st : ComponentState) :
    (downloadAllImages env st).urlRevoked =
      ((downloadAllImages env st).urlCreated &&
        env.triggerError.isNone) := by
  unfold downloadAllImages
  by_cases h : st.convertedImages.isEmpty = true
  · simp [h]
  · cases hg : env.genError <;> cases ht : env.triggerError <;>
      simp [h, hg, ht]

/-- C9 counterexample: in the run over two files, the state reached
after the first file completes is still in flight (`isConverting` true,
listed among the in-flight states) yet its results section is already
visible — partial results are surfaced mid-run, contradicting the
claim. -/
theorem partial_results_visible_mid_run :
    midState ∈ inFlightStates envAllOk stTwoFiles ∧
    midState.isConverting = true ∧
    resultsSectionVisible midState = true := by
  refine ⟨by decide, rfl, rfl⟩

/-- C9 (amended): completed per-file results are surfaced immediately
during the run: every in-flight state after at least one completed file
has `isConverting = true` and a visible, non-empty results section. -/
theorem partial_results_surfaced (env : Nat → FileOutcome)
    (st : ComponentState) :
    ∀ s ∈ (inFlightStates env st).drop 1,
      s.isConverting = true ∧ resultsSectionVisible s = true := by
  intro s hs
  unfold inFlightStates at hs
  split at hs
  · simp at hs
  · simp only [List.drop_succ_cons, List.drop_zero, List.mem_map] at hs
    rcases hs with ⟨imgs, himgs, hs⟩
    have hne := loopImageStates_ne_nil env st.selectedFiles 0 [] imgs himgs
    subst hs
    refine ⟨rfl, ?_⟩
    simp [resultsSectionVisible, List.length_pos, hne]

/-- C9 (amended) witness: the state after the first completed file is in
flight with a visible results section. -/
theorem partial_results_surfaced_witness :
    midState.isConverting = true ∧
    resultsSectionVisible midState = true :=
  partial_results_surfaced envAllOk stTwoFiles midState (by decide)

/-- C10: the batch driver never modifies `selectedFiles`; the archive
exporter modifies neither `selectedFiles`, `convertedImages` nor
`isConverting` on any path, and its state differs from the input at most
in `error`. -/
theorem frame_conditions (cenv : Nat → FileOutcome) (env : ExportEnv)
    (st : ComponentState) :
    (convertImages cenv st).selectedFiles = st.selectedFiles ∧
    (downloadAllImages env st).state.selectedFiles = st.selectedFiles ∧
    (downloadAllImages env st).state.convertedImages =
      st.convertedImages ∧
    (downloadAllImages env st).state.isConverting = st.isConverting ∧
    (downloadAllImages env st).state =
      { st with error := (downloadAllImages env st).state.error } := by
  have hconv : (convertImages cenv st).selectedFiles = st.selectedFiles := by
    by_cases h : st.selectedFiles.isEmpty = true
    · rw [convertImages_of_empty cenv st h]
    · rw [convertImages_of_nonempty cenv st (by simpa using h)]
  have hdown : (downloadAllImages env st).state =
      { st with error := (downloadAllImages env st).state.error } := by
    unfold downloadAllImages
    by_cases h : st.convertedImages.isEmpty = true
    · simp [h]
    · cases hg : env.genError <;> cases ht : env.triggerError <;>
        simp [h, hg, ht]
  refine ⟨hconv, ?_, ?_, ?_, hdown⟩
  · rw [hdown]
  · rw [hdown]
  · rw [hdown]

end WebpToJpeg
